import Mathlib

/-!
# Auction engine of the ecom-uv repository: a shallow embedding

This file embeds the auction subsystem of the repository in Lean 4 and
proves/refutes the specification claims about it.

Sources embedded:
* `server/models/Auction.js` (the `AuctionSchema` model): the status
  state machine `updateAuctionStatus`, the `pre('save')` hook, and the
  sweep `findActiveAndUpdateStatus`;
* `server/routes/auctions.js`: the route handlers for auction creation,
  bid placement, field update, cancellation and winner processing;
* `server/server.js` (tail): the `authorizeRole` role-gate middleware the
  routes install.

Modelling conventions:
* Mongo `ObjectId`s are `Nat`; `Date`s are `Int` (milliseconds since
  epoch); money amounts are `Rat` (the JS numbers behave as exact
  rationals on every value the claims exercise);
* optional schema fields (`reservePrice`, `buyNowPrice`) are `Option Rat`;
  the JS truthiness test `x || 0` is `Option.getD x 0`, and the truthiness
  guard `if (x)` on a number is "present and nonzero";
* each route handler is a function from the stored auction document (plus
  the request data and the request time `now`) to the pair
  (final persisted document, optional error).  The `updateAuctionStatusMiddleware`
  that refreshes and saves the document before the handler body runs is the
  `refreshAndSave` prefix of each handler, and every persistence point runs
  the model's `pre('save')` hook (`preSave`);
* the bookkeeping fields `createdAt` / `updatedAt` / `viewCount` timestamps
  set by the hook are not observable by any claim and are left out of the
  hook (`viewCount` itself is kept as data).
-/

namespace EcomAuction

attribute [local semireducible] Rat.mul Rat.add Rat.sub Rat.inv Rat.ofScientific

/-- Auction lifecycle status, from the `status` enum of `AuctionSchema`. -/
inductive Status where
  | Pending
  | Upcoming
  | Active
  | Ended
  | Sold
  | Expired
  | Cancelled
deriving DecidableEq, Repr

/-- Requester roles, from the User model / `authorizeRole` middleware. -/
inductive Role where
  | buyer
  | seller
  | admin
deriving DecidableEq, Repr

/-- The authenticated requester attached to a request (`req.user`). -/
structure Requester where
  id : Nat
  role : Role
deriving DecidableEq, Repr

/-- One entry of the embedded `bids` array (`BidSchema`). -/
structure Bid where
  user : Nat
  amount : Rat
  timestamp : Int
deriving DecidableEq, Repr

/-- The auction document (`AuctionSchema`). -/
structure Auction where
  product : Nat
  seller : Nat
  startTime : Int
  endTime : Int
  startingBid : Rat
  currentHighestBid : Rat
  currentHighestBidder : Option Nat
  bids : List Bid
  status : Status
  winner : Option Nat
  reservePrice : Option Rat
  buyNowPrice : Option Rat
  viewCount : Nat
deriving DecidableEq, Repr

/-- The product document fields the auction routes consult. -/
structure Product where
  id : Nat
  seller : Nat
  stock : Nat
deriving DecidableEq, Repr

/-- `AuctionSchema.pre('save')`: before every save, if
`currentHighestBid < startingBid` and no bids exist, reset
`currentHighestBid` to `startingBid`. -/
def preSave (a : Auction) : Auction :=
  if a.currentHighestBid < a.startingBid ∧ a.bids.length = 0 then
    { a with currentHighestBid := a.startingBid }
  else
    a

/-- `AuctionSchema.methods.updateAuctionStatus`, with the method's
`new Date()` made an explicit argument `now`.  The branch structure
mirrors the JS `if`/`else if` chain exactly, including the (unreachable)
fallthrough that leaves the document unchanged. -/
def updateAuctionStatus (a : Auction) (now : Int) : Auction :=
  if a.status = Status.Cancelled ∨ a.status = Status.Sold ∨ a.status = Status.Expired then
    a
  else if now < a.startTime then
    { a with status := Status.Upcoming }
  else if a.startTime ≤ now ∧ now < a.endTime then
    { a with status := Status.Active }
  else if a.endTime ≤ now then
    if a.currentHighestBidder.isSome ∧ a.reservePrice.getD 0 ≤ a.currentHighestBid then
      { a with status := Status.Ended }
    else
      { a with status := Status.Expired }
  else
    a

/-- `updateAuctionStatusMiddleware` of `routes/auctions.js`: refresh the
status, then persist (running the `pre('save')` hook). -/
def refreshAndSave (a : Auction) (now : Int) : Auction :=
  preSave (updateAuctionStatus a now)

/-- The status-refresh rule as the specification words it (claim C1's case
split), written independently of the source's branch structure. -/
def refreshStatusSpec (a : Auction) (now : Int) : Auction :=
  if a.status = Status.Cancelled ∨ a.status = Status.Sold ∨ a.status = Status.Expired then
    a
  else if now < a.startTime then
    { a with status := Status.Upcoming }
  else if now < a.endTime then
    { a with status := Status.Active }
  else if a.currentHighestBidder.isSome ∧ a.reservePrice.getD 0 ≤ a.currentHighestBid then
    { a with status := Status.Ended }
  else
    { a with status := Status.Expired }

/-- **C1.** `refreshStatus(auction, now)` computes the new status by the
spec's exact case split: terminal statuses are untouched; otherwise
`now < startTime` gives `Upcoming`; `startTime ≤ now < endTime` gives
`Active`; and `now ≥ endTime` gives `Ended` exactly when a highest bidder
exists and `currentHighestBid ≥ reservePrice` (0 when absent), `Expired`
otherwise. -/
theorem updateAuctionStatus_eq_spec (a : Auction) (now : Int) :
    updateAuctionStatus a now = refreshStatusSpec a now := by
  unfold updateAuctionStatus refreshStatusSpec
  split_ifs with h1 h2 h3 h4 h5 h6 h7 h8 <;> first | rfl | omega

/-- The errors the auction routes can answer with, one constructor per
`res.status(...).json(...)` rejection site. -/
inductive ApiErr where
  | validationFailed
  | notFound
  | notOwnProduct
  | duplicateAuction
  | outOfStock
  | notAuthorized
  | notActive (st : Status)
  | ownAuction
  | bidTooLow
  | belowMinIncrement
  | criticalFieldAfterBids
  | timingChangeWithBids
  | cannotCancel (st : Status)
  | activeWithBids
  | notEnded (st : Status)
  | noWinner
  | reserveNotMet
deriving DecidableEq, Repr

/-- The HTTP status code each rejection site answers with in
`routes/auctions.js` (403 for the authorization rejections, 404 for a
missing document, 400 for everything else). -/
def ApiErr.httpStatus : ApiErr → Nat
  | ApiErr.notFound => 404
  | ApiErr.notOwnProduct => 403
  | ApiErr.notAuthorized => 403
  | ApiErr.ownAuction => 403
  | _ => 400

/-- Truthiness of an optional numeric field: present with a nonzero value
(JS `if (x)` on a number treats `0` and `undefined` as false). -/
def numTruthy : Option Rat → Bool
  | some r => decide (r ≠ 0)
  | none => false

/-- Express-validator guard `isFloat({ min: 0 })` failing on an optional
field: present and negative. -/
def optNegative : Option Rat → Bool
  | some r => decide (r < 0)
  | none => false

/-- Express-validator guard `isFloat({ gt: 0 })` failing on an optional
field: present and not positive. -/
def optNonPositive : Option Rat → Bool
  | some r => decide (r ≤ 0)
  | none => false

/-- The `authorizeRole` middleware (required as
`server/middleware/roleMiddleware`; its code sits at the end of
`server/server.js`): the requester's role must be contained in the
allowed list, else the request is rejected with a 403 before the handler
runs.  A single-role argument is wrapped into a one-element list by the
middleware; the routes embedded here all pass lists.  The model's
requester always carries a role, so the middleware's separate
missing-role 403 guard never fires. -/
def roleAllowed (allowed : List Role) (r : Role) : Bool :=
  allowed.contains r

/-- `POST /api/auctions` (auction creation).  Arguments carry the request
body, the looked-up product (`none` when `Product.findById` misses), and
the result of the duplicate-open-auction query.  Returns the created,
persisted document or the first rejection, in the handler's order:
validator errors, product lookup, ownership, duplicate auction, stock;
then the document is built with `currentHighestBid = startingBid`, a
status seeded from `startTime ≤ now`, refined by `updateAuctionStatus`,
and saved. -/
def createAuction (product : Option Product) (hasOpenAuction : Bool) (req : Requester)
    (startTime endTime : Int) (startingBid : Rat)
    (reservePrice buyNowPrice : Option Rat) (now : Int) : Except ApiErr Auction :=
  if ¬ roleAllowed [Role.seller, Role.admin] req.role then
    Except.error ApiErr.notAuthorized
  else if ¬ 0 < startingBid then
    Except.error ApiErr.validationFailed
  else if endTime ≤ startTime then
    Except.error ApiErr.validationFailed
  else if optNegative reservePrice then
    Except.error ApiErr.validationFailed
  else if optNonPositive buyNowPrice then
    Except.error ApiErr.validationFailed
  else
    match product with
    | none => Except.error ApiErr.notFound
    | some p =>
      if req.role ≠ Role.admin ∧ p.seller ≠ req.id then
        Except.error ApiErr.notOwnProduct
      else if hasOpenAuction then
        Except.error ApiErr.duplicateAuction
      else if p.stock < 1 then
        Except.error ApiErr.outOfStock
      else
        let a : Auction :=
          { product := p.id
            seller := p.seller
            startTime := startTime
            endTime := endTime
            startingBid := startingBid
            currentHighestBid := startingBid
            currentHighestBidder := none
            bids := []
            status := if startTime ≤ now then Status.Active else Status.Upcoming
            winner := none
            reservePrice := reservePrice
            buyNowPrice := buyNowPrice
            viewCount := 0 }
        Except.ok (preSave (updateAuctionStatus a now))

/-- The handler's minimum-next-bid amount:
`auction.currentHighestBid + auction.startingBid * 0.01`. -/
def minNextBid (a : Auction) : Rat :=
  a.currentHighestBid + a.startingBid * 0.01

/-- `POST /api/auctions/:id/bids` (bid placement).  The middleware
refresh-and-save runs first, then the express-validator guard
`amount` `isFloat({ gt: 0 })` (its failure is read off by
`validationResult` before the handler body); the handler then checks, in
order: status `Active`, bidder is not the seller, amount strictly above
the current highest bid, and (when bids exist) amount at least the
minimum next bid.  On success the bid is appended,
`currentHighestBid`/`currentHighestBidder` are updated, the anti-sniping
extension is applied, and the document is saved.  The first component is
the finally persisted document. -/
def placeBid (a0 : Auction) (bidder : Nat) (amount : Rat) (now : Int) :
    Auction × Option ApiErr :=
  let a := refreshAndSave a0 now
  if ¬ 0 < amount then
    (a, some ApiErr.validationFailed)
  else if a.status ≠ Status.Active then
    (a, some (ApiErr.notActive a.status))
  else if a.seller = bidder then
    (a, some ApiErr.ownAuction)
  else if amount ≤ a.currentHighestBid then
    (a, some ApiErr.bidTooLow)
  else if amount < minNextBid a ∧ 0 < a.bids.length then
    (a, some ApiErr.belowMinIncrement)
  else
    let b : Bid := { user := bidder, amount := amount, timestamp := now }
    let a1 : Auction :=
      { a with
        bids := a.bids ++ [b]
        currentHighestBid := b.amount
        currentHighestBidder := some b.user }
    let timeLeft : Int := a1.endTime - now
    let a2 : Auction :=
      if timeLeft < 5 * 60 * 1000 then { a1 with endTime := now + 5 * 60 * 1000 } else a1
    (preSave a2, none)

/-- The update request body of `PUT /api/auctions/:id`.  `startTime` and
`endTime` arrive as dates (truthy whenever present); `startingBid`,
`reservePrice`, `buyNowPrice` as numbers; `productU` as an id string. -/
structure UpdateReq where
  startTime : Option Int
  endTime : Option Int
  startingBid : Option Rat
  reservePrice : Option Rat
  buyNowPrice : Option Rat
  productU : Option Nat
deriving DecidableEq, Repr

/-- `PUT /api/auctions/:id` (field update).  Middleware refresh-and-save,
then validator errors, ownership, the two business guards, field
application (`startTime`, `endTime`, `reservePrice`, `buyNowPrice`; note
`startingBid` is checked but never applied), a second status refresh, and
the save. -/
def updateFields (a0 : Auction) (u : UpdateReq) (req : Requester) (now : Int) :
    Auction × Option ApiErr :=
  let a := refreshAndSave a0 now
  if (match u.endTime with
      | some e => decide (e ≤ u.startTime.getD a.startTime)
      | none => false) then
    (a, some ApiErr.validationFailed)
  else if optNegative u.reservePrice then
    (a, some ApiErr.validationFailed)
  else if optNonPositive u.buyNowPrice then
    (a, some ApiErr.validationFailed)
  else if a.seller ≠ req.id ∧ req.role ≠ Role.admin then
    (a, some ApiErr.notAuthorized)
  else if 0 < a.bids.length ∧
      (numTruthy u.startingBid ∨ u.productU.isSome ∨ numTruthy u.reservePrice) then
    (a, some ApiErr.criticalFieldAfterBids)
  else if a.status ≠ Status.Upcoming ∧
      (u.startTime.isSome ∨ u.endTime.isSome ∨ numTruthy u.startingBid) ∧
      0 < a.bids.length then
    (a, some ApiErr.timingChangeWithBids)
  else
    let a1 := match u.startTime with | some s => { a with startTime := s } | none => a
    let a2 := match u.endTime with | some e => { a1 with endTime := e } | none => a1
    let a3 := match u.reservePrice with
      | some r => { a2 with reservePrice := some r }
      | none => a2
    let a4 := match u.buyNowPrice with
      | some b => { a3 with buyNowPrice := some b }
      | none => a3
    (preSave (updateAuctionStatus a4 now), none)

/-- `DELETE /api/auctions/:id` (cancellation).  Middleware
refresh-and-save, then ownership, the terminal-status guard, the
active-with-bids guard (admin only), and the save of the `Cancelled`
document. -/
def cancelAuction (a0 : Auction) (req : Requester) (now : Int) :
    Auction × Option ApiErr :=
  let a := refreshAndSave a0 now
  if a.seller ≠ req.id ∧ req.role ≠ Role.admin then
    (a, some ApiErr.notAuthorized)
  else if a.status = Status.Ended ∨ a.status = Status.Sold ∨ a.status = Status.Expired then
    (a, some (ApiErr.cannotCancel a.status))
  else if a.status = Status.Active ∧ 0 < a.bids.length ∧ req.role ≠ Role.admin then
    (a, some ApiErr.activeWithBids)
  else
    (preSave { a with status := Status.Cancelled }, none)

/-- `POST /api/auctions/:id/process-winner` (settlement).  Role gate,
middleware refresh-and-save, then ownership, the `Ended` guard, the
highest-bidder guard, the reserve guard (`auction.reservePrice &&
currentHighestBid < reservePrice` marks the document `Expired`, saves it
and rejects), and otherwise the save of the `Sold` document with the
winner recorded. -/
def processWinner (a0 : Auction) (req : Requester) (now : Int) :
    Auction × Option ApiErr :=
  if ¬ roleAllowed [Role.admin, Role.seller] req.role then
    (a0, some ApiErr.notAuthorized)
  else
    let a := refreshAndSave a0 now
    if a.seller ≠ req.id ∧ req.role ≠ Role.admin then
      (a, some ApiErr.notAuthorized)
    else if a.status ≠ Status.Ended then
      (a, some (ApiErr.notEnded a.status))
    else if a.currentHighestBidder.isNone then
      (a, some ApiErr.noWinner)
    else if numTruthy a.reservePrice ∧ a.currentHighestBid < a.reservePrice.getD 0 then
      (preSave { a with status := Status.Expired }, some ApiErr.reserveNotMet)
    else
      (preSave { a with
        winner := a.currentHighestBidder
        status := Status.Sold }, none)

/-- `AuctionSchema.statics.findActiveAndUpdateStatus`, restricted to a
single document: auctions matching the query (`status` in
`{Upcoming, Active}` and `endTime ≤ now`) get their status refreshed;
when that yields `Ended` with a highest bidder the winner is recorded;
the document is then saved.  Documents outside the query are untouched. -/
def sweepOne (a : Auction) (now : Int) : Auction :=
  if (a.status = Status.Upcoming ∨ a.status = Status.Active) ∧ a.endTime ≤ now then
    let a1 := updateAuctionStatus a now
    let a2 :=
      if a1.status = Status.Ended ∧ a1.currentHighestBidder.isSome then
        { a1 with winner := a1.currentHighestBidder }
      else
        a1
    preSave a2
  else
    a

/-- The sweep over a whole collection of auction documents. -/
def sweepAll (l : List Auction) (now : Int) : List Auction :=
  l.map (fun a => sweepOne a now)

/-! ## Frame lemmas: which fields each primitive can touch -/

/-- `updateAuctionStatus` writes the `status` field only. -/
lemma updateAuctionStatus_only_status (a : Auction) (now : Int) :
    ∃ s, updateAuctionStatus a now = { a with status := s } := by
  unfold updateAuctionStatus
  split_ifs <;> exact ⟨_, rfl⟩

/-- The `pre('save')` hook writes the `currentHighestBid` field only. -/
lemma preSave_only_chb (a : Auction) :
    ∃ c, preSave a = { a with currentHighestBid := c } := by
  unfold preSave
  split_ifs <;> exact ⟨_, rfl⟩

@[simp] lemma preSave_status (a : Auction) : (preSave a).status = a.status := by
  obtain ⟨c, h⟩ := preSave_only_chb a; rw [h]

@[simp] lemma preSave_winner (a : Auction) : (preSave a).winner = a.winner := by
  obtain ⟨c, h⟩ := preSave_only_chb a; rw [h]

@[simp] lemma preSave_bids (a : Auction) : (preSave a).bids = a.bids := by
  obtain ⟨c, h⟩ := preSave_only_chb a; rw [h]

@[simp] lemma preSave_seller (a : Auction) : (preSave a).seller = a.seller := by
  obtain ⟨c, h⟩ := preSave_only_chb a; rw [h]

@[simp] lemma preSave_endTime (a : Auction) : (preSave a).endTime = a.endTime := by
  obtain ⟨c, h⟩ := preSave_only_chb a; rw [h]

@[simp] lemma preSave_startTime (a : Auction) : (preSave a).startTime = a.startTime := by
  obtain ⟨c, h⟩ := preSave_only_chb a; rw [h]

@[simp] lemma preSave_startingBid (a : Auction) : (preSave a).startingBid = a.startingBid := by
  obtain ⟨c, h⟩ := preSave_only_chb a; rw [h]

@[simp] lemma preSave_reservePrice (a : Auction) : (preSave a).reservePrice = a.reservePrice := by
  obtain ⟨c, h⟩ := preSave_only_chb a; rw [h]

@[simp] lemma preSave_bidder (a : Auction) :
    (preSave a).currentHighestBidder = a.currentHighestBidder := by
  obtain ⟨c, h⟩ := preSave_only_chb a; rw [h]

/-- The hook never lowers `currentHighestBid`. -/
lemma preSave_chb_le (a : Auction) :
    a.currentHighestBid ≤ (preSave a).currentHighestBid := by
  unfold preSave
  split_ifs with h
  · exact le_of_lt h.1
  · exact le_refl _

@[simp] lemma updateAuctionStatus_winner (a : Auction) (now : Int) :
    (updateAuctionStatus a now).winner = a.winner := by
  obtain ⟨s, h⟩ := updateAuctionStatus_only_status a now; rw [h]

@[simp] lemma updateAuctionStatus_bids (a : Auction) (now : Int) :
    (updateAuctionStatus a now).bids = a.bids := by
  obtain ⟨s, h⟩ := updateAuctionStatus_only_status a now; rw [h]

@[simp] lemma updateAuctionStatus_seller (a : Auction) (now : Int) :
    (updateAuctionStatus a now).seller = a.seller := by
  obtain ⟨s, h⟩ := updateAuctionStatus_only_status a now; rw [h]

@[simp] lemma updateAuctionStatus_endTime (a : Auction) (now : Int) :
    (updateAuctionStatus a now).endTime = a.endTime := by
  obtain ⟨s, h⟩ := updateAuctionStatus_only_status a now; rw [h]

@[simp] lemma updateAuctionStatus_startTime (a : Auction) (now : Int) :
    (updateAuctionStatus a now).startTime = a.startTime := by
  obtain ⟨s, h⟩ := updateAuctionStatus_only_status a now; rw [h]

@[simp] lemma updateAuctionStatus_startingBid (a : Auction) (now : Int) :
    (updateAuctionStatus a now).startingBid = a.startingBid := by
  obtain ⟨s, h⟩ := updateAuctionStatus_only_status a now; rw [h]

@[simp] lemma updateAuctionStatus_chb (a : Auction) (now : Int) :
    (updateAuctionStatus a now).currentHighestBid = a.currentHighestBid := by
  obtain ⟨s, h⟩ := updateAuctionStatus_only_status a now; rw [h]

@[simp] lemma updateAuctionStatus_reservePrice (a : Auction) (now : Int) :
    (updateAuctionStatus a now).reservePrice = a.reservePrice := by
  obtain ⟨s, h⟩ := updateAuctionStatus_only_status a now; rw [h]

@[simp] lemma updateAuctionStatus_bidder (a : Auction) (now : Int) :
    (updateAuctionStatus a now).currentHighestBidder = a.currentHighestBidder := by
  obtain ⟨s, h⟩ := updateAuctionStatus_only_status a now; rw [h]

@[simp] lemma refreshAndSave_winner (a : Auction) (now : Int) :
    (refreshAndSave a now).winner = a.winner := by
  unfold refreshAndSave; simp

@[simp] lemma refreshAndSave_bids (a : Auction) (now : Int) :
    (refreshAndSave a now).bids = a.bids := by
  unfold refreshAndSave; simp

@[simp] lemma refreshAndSave_seller (a : Auction) (now : Int) :
    (refreshAndSave a now).seller = a.seller := by
  unfold refreshAndSave; simp

@[simp] lemma refreshAndSave_endTime (a : Auction) (now : Int) :
    (refreshAndSave a now).endTime = a.endTime := by
  unfold refreshAndSave; simp

@[simp] lemma refreshAndSave_startTime (a : Auction) (now : Int) :
    (refreshAndSave a now).startTime = a.startTime := by
  unfold refreshAndSave; simp

@[simp] lemma refreshAndSave_startingBid (a : Auction) (now : Int) :
    (refreshAndSave a now).startingBid = a.startingBid := by
  unfold refreshAndSave; simp

@[simp] lemma refreshAndSave_reservePrice (a : Auction) (now : Int) :
    (refreshAndSave a now).reservePrice = a.reservePrice := by
  unfold refreshAndSave; simp

@[simp] lemma refreshAndSave_bidder (a : Auction) (now : Int) :
    (refreshAndSave a now).currentHighestBidder = a.currentHighestBidder := by
  unfold refreshAndSave; simp

/-! ## Terminal statuses -/

/-- The terminal set `{Cancelled, Sold, Expired}`. -/
def isTerminal (s : Status) : Prop :=
  s = Status.Cancelled ∨ s = Status.Sold ∨ s = Status.Expired

instance (s : Status) : Decidable (isTerminal s) := by
  unfold isTerminal; infer_instance

/-- The status machine is a no-op on terminal documents. -/
lemma updateAuctionStatus_of_terminal (a : Auction) (now : Int) (h : isTerminal a.status) :
    updateAuctionStatus a now = a := by
  unfold updateAuctionStatus
  exact if_pos h

/-- A sequence of status refreshes at the given times. -/
def refreshSeq (a : Auction) (ts : List Int) : Auction :=
  ts.foldl updateAuctionStatus a

lemma refreshSeq_of_terminal (a : Auction) (h : isTerminal a.status) :
    ∀ ts : List Int, refreshSeq a ts = a := by
  intro ts
  induction ts with
  | nil => rfl
  | cons t ts ih =>
    show refreshSeq (updateAuctionStatus a t) ts = a
    rw [updateAuctionStatus_of_terminal a t h]
    exact ih

/-- A fixed concrete auction document used by the concrete runs below:
active from time 0 to time 1000000000 with starting bid 100 and no bids. -/
def aBase : Auction :=
  { product := 0
    seller := 1
    startTime := 0
    endTime := 1000000000
    startingBid := 100
    currentHighestBid := 100
    currentHighestBidder := none
    bids := []
    status := Status.Active
    winner := none
    reservePrice := none
    buyNowPrice := none
    viewCount := 0 }

/-- **C7.** Terminal monotonicity: an auction whose status is `Cancelled`,
`Sold` or `Expired` is left untouched by every sequence of `refreshStatus`
calls, at arbitrary times. -/
theorem terminal_refresh_monotone (a : Auction)
    (h : a.status = Status.Cancelled ∨ a.status = Status.Sold ∨ a.status = Status.Expired)
    (ts : List Int) : refreshSeq a ts = a :=
  refreshSeq_of_terminal a h ts

/-- Witness for C7: a `Sold` document survives a concrete refresh sequence. -/
theorem terminal_refresh_monotone_witness :
    refreshSeq { aBase with status := Status.Sold } [0, 7, 123456789, -5, 2000000000] =
      { aBase with status := Status.Sold } :=
  terminal_refresh_monotone { aBase with status := Status.Sold }
    (Or.inr (Or.inl rfl)) [0, 7, 123456789, -5, 2000000000]

/-- If the status machine lands on `Ended`, the document had a highest
bidder and a `currentHighestBid` at least `reservePrice || 0`. -/
lemma refresh_ended_conds (a : Auction) (now : Int)
    (h : (updateAuctionStatus a now).status = Status.Ended) :
    a.currentHighestBidder.isSome ∧ a.reservePrice.getD 0 ≤ a.currentHighestBid := by
  unfold updateAuctionStatus at h
  split_ifs at h with h1 h2 h3 h4 h5 <;>
    first
      | (exact h5)
      | (rcases h1 with h1 | h1 | h1 <;> rw [h] at h1 <;> exact absurd h1 (by decide))
      | (simp at h)
      | omega

/-- An auction with a bidder meeting the reserve: active from 0 to 100,
bid 150 by user 7 against a reserve of 100. -/
def aEnds : Auction :=
  { aBase with
    endTime := 100
    currentHighestBid := 150
    currentHighestBidder := some 7
    bids := [{ user := 7, amount := 150, timestamp := 50 }]
    reservePrice := some 100 }

/-- **C9.** After a status refresh, `status = Ended` implies a non-null
highest bidder whose bid meets the reserve (`reservePrice` read as 0 when
absent); consequently the reserve-unmet branch of the settlement handler
(mark `Expired`, answer `PreconditionFailed`) can never fire, for any
auction, requester and time. -/
theorem ended_reserve_met_and_settle_reserve_branch_dead (a : Auction) (now : Int) :
    ((updateAuctionStatus a now).status = Status.Ended →
      (updateAuctionStatus a now).currentHighestBidder.isSome ∧
      (updateAuctionStatus a now).reservePrice.getD 0 ≤
        (updateAuctionStatus a now).currentHighestBid) ∧
    ∀ req : Requester, (processWinner a req now).2 ≠ some ApiErr.reserveNotMet := by
  constructor
  · intro h
    obtain ⟨h1, h2⟩ := refresh_ended_conds a now h
    constructor <;> simp [h1, h2]
  · intro req
    simp only [processWinner, refreshAndSave]
    split_ifs with hrole hown hend hbid hres <;> simp
    have hst : (updateAuctionStatus a now).status = Status.Ended := by
      have h := not_ne_iff.mp hend
      rwa [preSave_status] at h
    obtain ⟨hbid', hge⟩ := refresh_ended_conds a now hst
    have hle := preSave_chb_le (updateAuctionStatus a now)
    rw [updateAuctionStatus_chb] at hle
    have hlt := hres.2
    rw [preSave_reservePrice, updateAuctionStatus_reservePrice] at hlt
    linarith

/-- Witness for C9 at the concrete document `aEnds` refreshed at time 200. -/
theorem ended_reserve_met_witness :
    ((updateAuctionStatus aEnds 200).currentHighestBidder.isSome ∧
      (updateAuctionStatus aEnds 200).reservePrice.getD 0 ≤
        (updateAuctionStatus aEnds 200).currentHighestBid) ∧
    (processWinner aEnds { id := 1, role := Role.seller } 200).2 ≠ some ApiErr.reserveNotMet :=
  ⟨(ended_reserve_met_and_settle_reserve_branch_dead aEnds 200).1 (by decide),
   (ended_reserve_met_and_settle_reserve_branch_dead aEnds 200).2
     { id := 1, role := Role.seller }⟩

/-- **Counterexample to C2 as stated.**  The sweep
(`findActiveAndUpdateStatus`) does set `winner`: on the document `aEnds`
(winner nil, active, ended in the past, bid 150 ≥ reserve 100) a sweep at
time 200 records user 7 as winner without any settlement call. -/
theorem sweep_sets_winner_counterexample :
    aEnds.winner = none ∧ (sweepOne aEnds 200).winner = some 7 := by
  decide

/-- A document created by the `POST /` handler carries `winner = null`. -/
lemma createAuction_winner : ∀ product hasOpen req st et sb rp bnp now a,
    createAuction product hasOpen req st et sb rp bnp now = Except.ok a →
      a.winner = none := by
  intro product hasOpen req st et sb rp bnp now a h
  cases product with
  | none =>
    simp only [createAuction] at h
    split_ifs at h <;> exact Except.noConfusion h
  | some p =>
    simp only [createAuction] at h
    split_ifs at h <;> try exact Except.noConfusion h
    all_goals
      injection h with h
      subst h
      simp

/-- Bid placement never touches `winner`, also on rejected bids. -/
lemma placeBid_winner : ∀ (a : Auction) (b : Nat) (amt : Rat) (now : Int),
    (placeBid a b amt now).1.winner = a.winner := by
  intro a b amt now
  simp only [placeBid]
  split_ifs <;> simp

/-- The field-update handler never touches `winner`. -/
lemma updateFields_winner : ∀ (a : Auction) (u : UpdateReq) (req : Requester) (now : Int),
    (updateFields a u req now).1.winner = a.winner := by
  intro a u req now
  simp only [updateFields]
  split_ifs <;> try simp
  cases hst : u.startTime <;> cases het : u.endTime <;>
    cases hrp : u.reservePrice <;> cases hbp : u.buyNowPrice <;> simp

/-- Cancellation never touches `winner`. -/
lemma cancelAuction_winner : ∀ (a : Auction) (req : Requester) (now : Int),
    (cancelAuction a req now).1.winner = a.winner := by
  intro a req now
  simp only [cancelAuction]
  split_ifs <;> simp

/-- What the sweep does to `winner`: it records the refreshed highest
bidder exactly when the document matched the query and refreshed to
`Ended` with a bidder. -/
lemma sweepOne_winner : ∀ (a : Auction) (now : Int),
    (sweepOne a now).winner =
      if (a.status = Status.Upcoming ∨ a.status = Status.Active) ∧ a.endTime ≤ now ∧
          (updateAuctionStatus a now).status = Status.Ended ∧
          (updateAuctionStatus a now).currentHighestBidder.isSome
        then (updateAuctionStatus a now).currentHighestBidder
        else a.winner := by
  intro a now
  by_cases hq : (a.status = Status.Upcoming ∨ a.status = Status.Active) ∧ a.endTime ≤ now
  · by_cases hw : (updateAuctionStatus a now).status = Status.Ended ∧
        (updateAuctionStatus a now).currentHighestBidder.isSome
    · rw [if_pos ⟨hq.1, hq.2, hw.1, hw.2⟩]
      simp only [sweepOne]
      rw [if_pos hq, if_pos hw]
      simp
    · rw [if_neg (by tauto)]
      simp only [sweepOne]
      rw [if_pos hq, if_neg hw]
      simp
  · rw [if_neg (by tauto)]
    simp only [sweepOne]
    rw [if_neg hq]

/-- **C2 (amended).**  `winner` is written only by settlement and by the
sweep: `create` yields a document with `winner = null`; `refreshStatus`,
`placeBid`, `updateFields` and `cancel` never change `winner`; the sweep
sets `winner` to the refreshed document's highest bidder exactly when the
document matched the sweep query and refreshed to `Ended` with a bidder,
and leaves it unchanged otherwise. -/
theorem winner_written_only_by_settle_and_sweep :
    (∀ product hasOpen req st et sb rp bnp now a,
      createAuction product hasOpen req st et sb rp bnp now = Except.ok a →
        a.winner = none) ∧
    (∀ (a : Auction) (now : Int), (updateAuctionStatus a now).winner = a.winner) ∧
    (∀ (a : Auction) (b : Nat) (amt : Rat) (now : Int),
      (placeBid a b amt now).1.winner = a.winner) ∧
    (∀ (a : Auction) (u : UpdateReq) (req : Requester) (now : Int),
      (updateFields a u req now).1.winner = a.winner) ∧
    (∀ (a : Auction) (req : Requester) (now : Int),
      (cancelAuction a req now).1.winner = a.winner) ∧
    (∀ (a : Auction) (now : Int),
      (sweepOne a now).winner =
        if (a.status = Status.Upcoming ∨ a.status = Status.Active) ∧ a.endTime ≤ now ∧
            (updateAuctionStatus a now).status = Status.Ended ∧
            (updateAuctionStatus a now).currentHighestBidder.isSome
          then (updateAuctionStatus a now).currentHighestBidder
          else a.winner) := by
  exact ⟨createAuction_winner, updateAuctionStatus_winner, placeBid_winner,
    updateFields_winner, cancelAuction_winner, sweepOne_winner⟩

/-- A product of seller 1 with stock 5, for the concrete creation runs. -/
def pW : Product := { id := 0, seller := 1, stock := 5 }

/-- The document the creation handler produces from `pW` with times 0/1000,
starting bid 100, at request time 500. -/
def aCreatedW : Auction := { aBase with endTime := 1000 }

/-- Witness for C2 (amended): a concrete creation yields `winner = null`. -/
theorem winner_written_only_by_settle_and_sweep_witness : aCreatedW.winner = none :=
  winner_written_only_by_settle_and_sweep.1 (some pW) false { id := 1, role := Role.seller }
    0 1000 100 none none 500 aCreatedW (by rfl)

/-- `refreshAndSave` never lowers `currentHighestBid`. -/
lemma refreshAndSave_chb_le (a : Auction) (now : Int) :
    a.currentHighestBid ≤ (refreshAndSave a now).currentHighestBid := by
  unfold refreshAndSave
  have h := preSave_chb_le (updateAuctionStatus a now)
  rwa [updateAuctionStatus_chb] at h

/-- The settlement handler, unfolded past the role gate. -/
lemma processWinner_eq (a : Auction) (req : Requester) (now : Int)
    (hg : roleAllowed [Role.admin, Role.seller] req.role) :
    processWinner a req now =
      (if (refreshAndSave a now).seller ≠ req.id ∧ req.role ≠ Role.admin then
        (refreshAndSave a now, some ApiErr.notAuthorized)
      else if (refreshAndSave a now).status ≠ Status.Ended then
        (refreshAndSave a now, some (ApiErr.notEnded (refreshAndSave a now).status))
      else if (refreshAndSave a now).currentHighestBidder.isNone then
        (refreshAndSave a now, some ApiErr.noWinner)
      else if numTruthy (refreshAndSave a now).reservePrice ∧
          (refreshAndSave a now).currentHighestBid <
            (refreshAndSave a now).reservePrice.getD 0 then
        (preSave { refreshAndSave a now with status := Status.Expired },
          some ApiErr.reserveNotMet)
      else
        (preSave { refreshAndSave a now with
          winner := (refreshAndSave a now).currentHighestBidder
          status := Status.Sold }, none)) := by
  simp only [processWinner]
  rw [if_neg (not_not_intro hg)]

/-- **C5.**  Settlement by the seller or an admin: when the refreshed
status is not `Ended` or there is no highest bidder the handler rejects
with the corresponding `InvalidState` error; when the refreshed status is
`Ended` with bidder `w` and the reserve is met (absent, or
`currentHighestBid ≥ reservePrice`) it persists the document with
`winner = w` and `status = Sold`; if the reserve were unmet it would
persist `status = Expired` and reject with `PreconditionFailed`. -/
theorem processWinner_settles (a : Auction) (req : Requester) (now : Int)
    (hrole : req.role = Role.seller ∨ req.role = Role.admin)
    (hown : (refreshAndSave a now).seller = req.id ∨ req.role = Role.admin) :
    ((refreshAndSave a now).status ≠ Status.Ended →
      processWinner a req now =
        (refreshAndSave a now, some (ApiErr.notEnded (refreshAndSave a now).status))) ∧
    ((refreshAndSave a now).status = Status.Ended →
      (refreshAndSave a now).currentHighestBidder = none →
      processWinner a req now = (refreshAndSave a now, some ApiErr.noWinner)) ∧
    (∀ w : Nat, (refreshAndSave a now).status = Status.Ended →
      (refreshAndSave a now).currentHighestBidder = some w →
      ((refreshAndSave a now).reservePrice = none ∨
        (refreshAndSave a now).reservePrice.getD 0 ≤
          (refreshAndSave a now).currentHighestBid) →
      processWinner a req now =
        (preSave { refreshAndSave a now with
          winner := some w
          status := Status.Sold }, none)) ∧
    (∀ w : Nat, (refreshAndSave a now).status = Status.Ended →
      (refreshAndSave a now).currentHighestBidder = some w →
      ¬((refreshAndSave a now).reservePrice = none ∨
        (refreshAndSave a now).reservePrice.getD 0 ≤
          (refreshAndSave a now).currentHighestBid) →
      processWinner a req now =
        (preSave { refreshAndSave a now with status := Status.Expired },
          some ApiErr.reserveNotMet)) := by
  have hg : roleAllowed [Role.admin, Role.seller] req.role := by
    rcases hrole with h | h <;> simp [roleAllowed, h]
  have hown' : ¬((refreshAndSave a now).seller ≠ req.id ∧ req.role ≠ Role.admin) := by
    tauto
  rw [processWinner_eq a req now hg]
  have hmet : (refreshAndSave a now).status = Status.Ended →
      (refreshAndSave a now).reservePrice.getD 0 ≤ (refreshAndSave a now).currentHighestBid := by
    intro hEnded
    rw [refreshAndSave, preSave_status] at hEnded
    obtain ⟨_, hge⟩ := refresh_ended_conds a now hEnded
    have hle := refreshAndSave_chb_le a now
    rw [refreshAndSave_reservePrice]
    linarith
  refine ⟨?_, ?_, ?_, ?_⟩
  · intro h
    rw [if_neg hown', if_pos h]
  · intro h hb
    rw [if_neg hown', if_neg (not_not_intro h), if_pos (Option.isNone_iff_eq_none.mpr hb)]
  · intro w h hb _
    rw [if_neg hown', if_neg (not_not_intro h),
      if_neg (by rw [Option.isNone_iff_eq_none, hb]; simp),
      if_neg (by
        intro hc
        exact absurd hc.2 (not_lt.mpr (hmet h))), hb]
  · intro w h hb hniet
    exfalso
    rw [not_or] at hniet
    exact absurd (hmet h) (by
      rw [refreshAndSave_reservePrice] at hniet ⊢
      exact hniet.2)

/-- Witness for C5: the 150-versus-reserve-100 scenario settles to `Sold`
with winner 7. -/
theorem processWinner_settles_witness :
    processWinner aEnds { id := 1, role := Role.seller } 200 =
      (preSave { refreshAndSave aEnds 200 with
        winner := some 7
        status := Status.Sold }, none) :=
  (processWinner_settles aEnds { id := 1, role := Role.seller } 200
    (Or.inl rfl) (Or.inl (by decide))).2.2.1 7 (by decide) (by decide) (by decide)

/-- An active auction of seller 1 carrying one bid of 150 by user 2. -/
def aBid1 : Auction :=
  { aBase with
    currentHighestBid := 150
    currentHighestBidder := some 2
    bids := [{ user := 2, amount := 150, timestamp := 10 }] }

/-- **Counterexample to C8 as stated.**  When the non-admin seller cancels
an `Active` auction that has a bid, the handler answers the dedicated
400 rejection (`Cannot cancel an active auction with bids`), not the
403 `Forbidden` the claim asserts. -/
theorem cancel_active_with_bids_not_forbidden_counterexample :
    (cancelAuction aBid1 { id := 1, role := Role.seller } 500).2 =
        some ApiErr.activeWithBids ∧
    ApiErr.activeWithBids.httpStatus = 400 ∧
    ¬ ApiErr.activeWithBids.httpStatus = 403 := by
  decide

/-- **C8 (amended).**  Cancellation by the seller or an admin: a refreshed
status in `{Ended, Sold, Expired}` is rejected with the 400
`InvalidState` error; an `Active` auction with at least one bid is, for a
non-admin requester, rejected with the dedicated 400 error (not a 403
`Forbidden`); otherwise the document is persisted with
`status = Cancelled`. -/
theorem cancelAuction_behavior (a : Auction) (req : Requester) (now : Int)
    (hown : (refreshAndSave a now).seller = req.id ∨ req.role = Role.admin) :
    ((refreshAndSave a now).status = Status.Ended ∨
        (refreshAndSave a now).status = Status.Sold ∨
        (refreshAndSave a now).status = Status.Expired →
      cancelAuction a req now =
        (refreshAndSave a now,
          some (ApiErr.cannotCancel (refreshAndSave a now).status)) ∧
      (ApiErr.cannotCancel (refreshAndSave a now).status).httpStatus = 400) ∧
    ((refreshAndSave a now).status = Status.Active →
      0 < (refreshAndSave a now).bids.length → req.role ≠ Role.admin →
      cancelAuction a req now = (refreshAndSave a now, some ApiErr.activeWithBids) ∧
      ApiErr.activeWithBids.httpStatus = 400) ∧
    (¬((refreshAndSave a now).status = Status.Ended ∨
        (refreshAndSave a now).status = Status.Sold ∨
        (refreshAndSave a now).status = Status.Expired) →
      ¬((refreshAndSave a now).status = Status.Active ∧
        0 < (refreshAndSave a now).bids.length ∧ req.role ≠ Role.admin) →
      cancelAuction a req now =
        (preSave { refreshAndSave a now with status := Status.Cancelled }, none)) := by
  have hown' : ¬((refreshAndSave a now).seller ≠ req.id ∧ req.role ≠ Role.admin) := by
    tauto
  simp only [cancelAuction]
  refine ⟨?_, ?_, ?_⟩
  · intro hterm
    rw [if_neg hown', if_pos hterm]
    exact ⟨rfl, rfl⟩
  · intro hA hb hr
    have hterm : ¬((refreshAndSave a now).status = Status.Ended ∨
        (refreshAndSave a now).status = Status.Sold ∨
        (refreshAndSave a now).status = Status.Expired) := by
      rw [hA]; decide
    rw [if_neg hown', if_neg hterm, if_pos ⟨hA, hb, hr⟩]
    exact ⟨rfl, rfl⟩
  · intro hterm hact
    rw [if_neg hown', if_neg hterm, if_neg hact]

/-- Witness for C8 (amended): concrete runs of the three branches. -/
theorem cancelAuction_behavior_witness :
    cancelAuction { aBase with status := Status.Sold } { id := 1, role := Role.seller } 500 =
      (refreshAndSave { aBase with status := Status.Sold } 500,
        some (ApiErr.cannotCancel
          (refreshAndSave { aBase with status := Status.Sold } 500).status)) ∧
    cancelAuction aBid1 { id := 1, role := Role.seller } 500 =
      (refreshAndSave aBid1 500, some ApiErr.activeWithBids) ∧
    cancelAuction aBase { id := 1, role := Role.seller } 500 =
      (preSave { refreshAndSave aBase 500 with status := Status.Cancelled }, none) :=
  ⟨((cancelAuction_behavior { aBase with status := Status.Sold }
      { id := 1, role := Role.seller } 500 (Or.inl (by decide))).1 (by decide)).1,
   ((cancelAuction_behavior aBid1 { id := 1, role := Role.seller } 500
      (Or.inl (by decide))).2.1 (by decide) (by decide) (by decide)).1,
   (cancelAuction_behavior aBase { id := 1, role := Role.seller } 500
      (Or.inl (by decide))).2.2 (by decide) (by decide)⟩

/-- **C4.**  Anti-sniping: a successful bid at time `now` on an auction
whose `endTime` is less than 5 minutes away moves `endTime` to
`now + 5 minutes`; with 5 minutes or more left, `endTime` is unchanged.
The new `endTime` depends only on the bid's own `now`, so late-bid
extensions recompute rather than accumulate. -/
theorem placeBid_antisniping (a : Auction) (b : Nat) (amt : Rat) (now : Int)
    (hs : (placeBid a b amt now).2 = none) :
    (a.endTime - now < 5 * 60 * 1000 →
      (placeBid a b amt now).1.endTime = now + 5 * 60 * 1000) ∧
    (5 * 60 * 1000 ≤ a.endTime - now →
      (placeBid a b amt now).1.endTime = a.endTime) := by
  constructor <;>
    · intro h
      simp only [placeBid] at hs ⊢
      split_ifs at hs ⊢ with h0 h1 h2 h3 h4 h5 <;>
        first
          | (simp at hs; done)
          | (simp; done)
          | (exfalso; simp at h5; omega)

/-- A bid on this document at time 1000000 lands 2 minutes before the end. -/
def aLate : Auction := { aBase with endTime := 1120000 }

/-- A bid on this document at time 1000000 lands 10 minutes before the end. -/
def aEarly : Auction := { aBase with endTime := 1600000 }

/-- Witness for C4: the 2-minutes-left bid moves the end to bid time plus
5 minutes, the 10-minutes-left bid leaves it alone, and a second late bid
on the extended document recomputes from its own time. -/
theorem placeBid_antisniping_witness :
    (placeBid aLate 2 150 1000000).1.endTime = 1000000 + 5 * 60 * 1000 ∧
    (placeBid aEarly 2 150 1000000).1.endTime = aEarly.endTime ∧
    (placeBid (placeBid aLate 2 150 1000000).1 3 160 1100000).1.endTime =
      1100000 + 5 * 60 * 1000 :=
  ⟨(placeBid_antisniping aLate 2 150 1000000 (by decide)).1 (by decide),
   (placeBid_antisniping aEarly 2 150 1000000 (by decide)).2 (by decide),
   (placeBid_antisniping (placeBid aLate 2 150 1000000).1 3 160 1100000
      (by decide)).1 (by decide)⟩

/-- The document the creation handler persists for a creation whose
`endTime` already lies in the past: all fields as submitted, no bids, and
the immediately derived terminal status `Expired`. -/
def auctionDocPastEnd (p : Product) (st et : Int) (sb : Rat) (rp bnp : Option Rat) : Auction :=
  { product := p.id
    seller := p.seller
    startTime := st
    endTime := et
    startingBid := sb
    currentHighestBid := sb
    currentHighestBidder := none
    bids := []
    status := Status.Expired
    winner := none
    reservePrice := rp
    buyNowPrice := bnp
    viewCount := 0 }

/-- **C10.**  Creation never requires `endTime` to be in the future, only
`endTime > startTime`: with every other precondition satisfied and
`endTime ≤ now`, creation succeeds, and the persisted document is born in
the terminal status `Expired` — no refresh sequence ever changes it and
every bid on it is rejected. -/
theorem createAuction_past_end (p : Product) (req : Requester) (st et : Int) (sb : Rat)
    (rp bnp : Option Rat) (now : Int)
    (hrole : roleAllowed [Role.seller, Role.admin] req.role)
    (hown : ¬(req.role ≠ Role.admin ∧ p.seller ≠ req.id))
    (hstock : 1 ≤ p.stock)
    (hsb : 0 < sb) (ht : st < et)
    (hrp : ¬ optNegative rp) (hbnp : ¬ optNonPositive bnp)
    (hpast : et ≤ now) :
    createAuction (some p) false req st et sb rp bnp now =
      Except.ok (auctionDocPastEnd p st et sb rp bnp) ∧
    (auctionDocPastEnd p st et sb rp bnp).status = Status.Expired ∧
    (∀ ts : List Int, refreshSeq (auctionDocPastEnd p st et sb rp bnp) ts =
      auctionDocPastEnd p st et sb rp bnp) ∧
    (∀ (b : Nat) (amt : Rat) (t : Int),
      (placeBid (auctionDocPastEnd p st et sb rp bnp) b amt t).2 ≠ none) := by
  have hst : st ≤ now := le_trans ht.le hpast
  have hterm : isTerminal (auctionDocPastEnd p st et sb rp bnp).status :=
    Or.inr (Or.inr rfl)
  have hsave : preSave (auctionDocPastEnd p st et sb rp bnp) =
      auctionDocPastEnd p st et sb rp bnp := by
    unfold preSave
    rw [if_neg]
    intro hc
    exact absurd hc.1 (lt_irrefl sb)
  refine ⟨?_, rfl, fun ts => refreshSeq_of_terminal _ hterm ts, ?_⟩
  · simp only [createAuction]
    rw [if_neg (not_not_intro hrole), if_neg (not_not_intro hsb),
      if_neg (by omega), if_neg hrp, if_neg hbnp, if_neg hown,
      if_neg (by simp), if_neg (by omega), if_pos hst]
    have hupd : updateAuctionStatus
        { product := p.id, seller := p.seller, startTime := st, endTime := et,
          startingBid := sb, currentHighestBid := sb, currentHighestBidder := none,
          bids := [], status := Status.Active, winner := none, reservePrice := rp,
          buyNowPrice := bnp, viewCount := 0 } now =
        auctionDocPastEnd p st et sb rp bnp := by
      unfold updateAuctionStatus
      rw [if_neg (by simp), if_neg (by simp; omega), if_neg (by simp; omega),
        if_pos (by simp; omega), if_neg (by simp)]
      rfl
    rw [hupd, hsave]
  · intro b amt t
    simp only [placeBid]
    rw [refreshAndSave, updateAuctionStatus_of_terminal _ _ hterm, hsave]
    by_cases hamt : 0 < amt
    · rw [if_neg (not_not_intro hamt), if_pos (by simp [auctionDocPastEnd])]
      simp
    · rw [if_pos hamt]
      simp

/-- **Counterexample to C3 as stated.**  The route's express-validator on
`amount` rejects before the four handler checks: a bid of 0 on a `Sold`
auction is answered with the validation error, not with the
`InvalidState` rejection that the claim's first failing check (status
must be `Active`) names. -/
theorem placeBid_validator_first_counterexample :
    (placeBid { aBase with status := Status.Sold } 2 0 500).2 =
        some ApiErr.validationFailed ∧
    ApiErr.validationFailed ≠ ApiErr.notActive Status.Sold := by
  decide

/-- **C3 (amended).**  The bid route first rejects a non-positive amount
with the express-validator's 400 error; for positive amounts the handler
checks its preconditions in order, first failure winning: refreshed
status `Active` (else the `InvalidState` rejection), bidder not the
seller (else the 403 `Forbidden` rejection), amount strictly above
`currentHighestBid` (else `InvalidArgument`), and — only when bids exist
— amount at least `currentHighestBid + 0.01 * startingBid` (else
`InvalidArgument`).  Concretely, with `startingBid = 100` and no bids: a
bid of 100 is rejected, 101 is accepted, and a follow-up 101.5 is
rejected below the minimum next bid of 102. -/
theorem placeBid_checks_in_order :
    (∀ (a : Auction) (b : Nat) (amt : Rat) (now : Int),
      (¬ 0 < amt →
        placeBid a b amt now = (refreshAndSave a now, some ApiErr.validationFailed)) ∧
      (0 < amt → (refreshAndSave a now).status ≠ Status.Active →
        placeBid a b amt now =
          (refreshAndSave a now,
            some (ApiErr.notActive (refreshAndSave a now).status))) ∧
      (0 < amt → (refreshAndSave a now).status = Status.Active →
        (refreshAndSave a now).seller = b →
        placeBid a b amt now = (refreshAndSave a now, some ApiErr.ownAuction)) ∧
      (0 < amt → (refreshAndSave a now).status = Status.Active →
        (refreshAndSave a now).seller ≠ b →
        amt ≤ (refreshAndSave a now).currentHighestBid →
        placeBid a b amt now = (refreshAndSave a now, some ApiErr.bidTooLow)) ∧
      (0 < amt → (refreshAndSave a now).status = Status.Active →
        (refreshAndSave a now).seller ≠ b →
        (refreshAndSave a now).currentHighestBid < amt →
        amt < minNextBid (refreshAndSave a now) →
        (refreshAndSave a now).bids ≠ [] →
        placeBid a b amt now =
          (refreshAndSave a now, some ApiErr.belowMinIncrement))) ∧
    ApiErr.ownAuction.httpStatus = 403 ∧
    (placeBid aBase 2 100 500).2 = some ApiErr.bidTooLow ∧
    ((placeBid aBase 2 101 500).2 = none ∧
      (placeBid aBase 2 101 500).1.currentHighestBid = 101) ∧
    (placeBid (placeBid aBase 2 101 500).1 3 101.5 600).2 =
      some ApiErr.belowMinIncrement := by
  refine ⟨?_, rfl, by decide, ⟨by decide, by decide⟩, by decide⟩
  intro a b amt now
  refine ⟨?_, ?_, ?_, ?_, ?_⟩
  · intro h0
    simp only [placeBid]
    rw [if_pos h0]
  · intro h0 h1
    simp only [placeBid]
    rw [if_neg (not_not_intro h0), if_pos h1]
  · intro h0 h1 h2
    simp only [placeBid]
    rw [if_neg (not_not_intro h0), if_neg (not_not_intro h1), if_pos h2]
  · intro h0 h1 h2 h3
    simp only [placeBid]
    rw [if_neg (not_not_intro h0), if_neg (not_not_intro h1), if_neg h2, if_pos h3]
  · intro h0 h1 h2 h3 h4 h5
    simp only [placeBid]
    rw [if_neg (not_not_intro h0), if_neg (not_not_intro h1), if_neg h2,
      if_neg (not_le.mpr h3), if_pos ⟨h4, List.length_pos.mpr h5⟩]

/-- Witness for C3 (amended): one concrete run per rejection site,
including the validator rejection of a zero bid. -/
theorem placeBid_checks_in_order_witness :
    placeBid aBase 2 0 500 = (refreshAndSave aBase 500, some ApiErr.validationFailed) ∧
    placeBid { aBase with status := Status.Sold } 2 150 500 =
      (refreshAndSave { aBase with status := Status.Sold } 500,
        some (ApiErr.notActive
          (refreshAndSave { aBase with status := Status.Sold } 500).status)) ∧
    placeBid aBase 1 150 500 = (refreshAndSave aBase 500, some ApiErr.ownAuction) ∧
    placeBid aBase 2 100 500 = (refreshAndSave aBase 500, some ApiErr.bidTooLow) ∧
    placeBid aBid1 2 150.5 500 =
      (refreshAndSave aBid1 500, some ApiErr.belowMinIncrement) :=
  ⟨(placeBid_checks_in_order.1 aBase 2 0 500).1 (by decide),
   (placeBid_checks_in_order.1 { aBase with status := Status.Sold } 2 150 500).2.1
      (by decide) (by decide),
   (placeBid_checks_in_order.1 aBase 1 150 500).2.2.1 (by decide) (by decide) (by decide),
   (placeBid_checks_in_order.1 aBase 2 100 500).2.2.2.1 (by decide) (by decide)
      (by decide) (by decide),
   (placeBid_checks_in_order.1 aBid1 2 150.5 500).2.2.2.2 (by decide) (by decide)
      (by decide) (by decide) (by decide) (by decide)⟩

/-- Witness for C10: a concrete creation at time 200 of an auction that
ended at time 100 succeeds and is born `Expired`. -/
theorem createAuction_past_end_witness :
    createAuction (some pW) false { id := 1, role := Role.seller } 0 100 100 none none 200 =
      Except.ok (auctionDocPastEnd pW 0 100 100 none none) ∧
    (auctionDocPastEnd pW 0 100 100 none none).status = Status.Expired :=
  ⟨(createAuction_past_end pW { id := 1, role := Role.seller } 0 100 100 none none 200
      (by decide) (by decide) (by decide) (by decide) (by decide) (by decide) (by decide)
      (by decide)).1,
   (createAuction_past_end pW { id := 1, role := Role.seller } 0 100 100 none none 200
      (by decide) (by decide) (by decide) (by decide) (by decide) (by decide) (by decide)
      (by decide)).2.1⟩

/-! ## The currentHighestBid / last-bid invariant -/

/-- `currentHighestBid` equals the amount of the last appended bid, or
`startingBid` when no bids exist. -/
def bidInvariant (a : Auction) : Prop :=
  a.currentHighestBid =
    (match a.bids.getLast? with
      | some b => b.amount
      | none => a.startingBid)

instance (a : Auction) : Decidable (bidInvariant a) := by
  unfold bidInvariant; infer_instance

/-- The `pre('save')` hook is the identity on documents satisfying the
invariant. -/
lemma preSave_of_invariant (a : Auction) (h : bidInvariant a) : preSave a = a := by
  unfold preSave
  rw [if_neg]
  intro hc
  have hnil : a.bids = [] := List.length_eq_zero.mp hc.2
  unfold bidInvariant at h
  rw [hnil] at h
  simp at h
  rw [h] at hc
  exact lt_irrefl _ hc.1

/-- The hook is also the identity whenever bids exist. -/
lemma preSave_of_bids_ne_nil (a : Auction) (h : a.bids ≠ []) : preSave a = a := by
  unfold preSave
  rw [if_neg]
  intro hc
  exact h (List.length_eq_zero.mp hc.2)

/-- The invariant only looks at `bids`, `currentHighestBid` and
`startingBid`. -/
lemma bidInvariant_fields {a' a : Auction} (hb : a'.bids = a.bids)
    (hc : a'.currentHighestBid = a.currentHighestBid)
    (hs : a'.startingBid = a.startingBid) : bidInvariant a' ↔ bidInvariant a := by
  unfold bidInvariant
  rw [hb, hc, hs]

lemma bidInvariant_update (a : Auction) (now : Int) :
    bidInvariant (updateAuctionStatus a now) ↔ bidInvariant a :=
  bidInvariant_fields (by simp) (by simp) (by simp)

lemma refreshAndSave_of_invariant (a : Auction) (now : Int) (h : bidInvariant a) :
    refreshAndSave a now = updateAuctionStatus a now := by
  unfold refreshAndSave
  exact preSave_of_invariant _ ((bidInvariant_update a now).mpr h)

lemma bidInvariant_refreshAndSave (a : Auction) (now : Int) (h : bidInvariant a) :
    bidInvariant (refreshAndSave a now) := by
  rw [refreshAndSave_of_invariant a now h]
  exact (bidInvariant_update a now).mpr h

lemma bidInvariant_preSave_of (x : Auction) (hx : bidInvariant x) :
    bidInvariant (preSave x) := by
  rw [preSave_of_invariant _ hx]
  exact hx

/-- Every rejected bid leaves the persisted document at the refreshed
state; every accepted one reports success. -/
lemma placeBid_fst_cases (a : Auction) (b : Nat) (amt : Rat) (now : Int) :
    (placeBid a b amt now).1 = refreshAndSave a now ∨ (placeBid a b amt now).2 = none := by
  simp only [placeBid]
  split_ifs <;> simp

/-- A successful bid restores the invariant, records the bid amount as
the new `currentHighestBid`, and strictly increases it. -/
lemma placeBid_success_core (a : Auction) (b : Nat) (amt : Rat) (now : Int)
    (hs : (placeBid a b amt now).2 = none) :
    bidInvariant (placeBid a b amt now).1 ∧
    (placeBid a b amt now).1.currentHighestBid = amt ∧
    a.currentHighestBid < amt := by
  simp only [placeBid] at hs ⊢
  split_ifs at hs ⊢ with h0 h1 h2 h3 h4 h5 <;> try (simp at hs; done)
  all_goals
    refine ⟨?_, ?_, lt_of_le_of_lt (refreshAndSave_chb_le a now) (not_le.mp h3)⟩ <;>
      rw [preSave_of_bids_ne_nil _ (by simp)] <;>
        first
          | rfl
          | (unfold bidInvariant; simp [List.getLast?_concat])

lemma placeBid_invariant (a : Auction) (b : Nat) (amt : Rat) (now : Int)
    (h : bidInvariant a) : bidInvariant (placeBid a b amt now).1 := by
  rcases placeBid_fst_cases a b amt now with hf | hsucc
  · rw [hf]
    exact bidInvariant_refreshAndSave a now h
  · exact (placeBid_success_core a b amt now hsucc).1

lemma createAuction_invariant : ∀ product hasOpen req st et sb rp bnp now a,
    createAuction product hasOpen req st et sb rp bnp now = Except.ok a →
      bidInvariant a ∧ a.bids = [] ∧ a.currentHighestBid = a.startingBid := by
  intro product hasOpen req st et sb rp bnp now a h
  cases product with
  | none =>
    simp only [createAuction] at h
    split_ifs at h <;> exact Except.noConfusion h
  | some p =>
    simp only [createAuction] at h
    split_ifs at h <;> try exact Except.noConfusion h
    all_goals
      injection h with h
      subst h
      refine ⟨?_, by simp, ?_⟩
      · exact bidInvariant_refreshAndSave _ now (by rfl)
      · rw [preSave_of_invariant _ ((bidInvariant_update _ now).mpr (by rfl))]
        simp

lemma updateFields_invariant (a : Auction) (u : UpdateReq) (req : Requester) (now : Int)
    (h : bidInvariant a) : bidInvariant (updateFields a u req now).1 := by
  have hA : bidInvariant (refreshAndSave a now) := bidInvariant_refreshAndSave a now h
  simp only [updateFields]
  split_ifs <;> try exact hA
  cases hst : u.startTime <;> cases het : u.endTime <;>
    cases hrp : u.reservePrice <;> cases hbp : u.buyNowPrice <;>
      exact bidInvariant_refreshAndSave _ now
        ((bidInvariant_fields rfl rfl rfl).mpr hA)

lemma cancelAuction_invariant (a : Auction) (req : Requester) (now : Int)
    (h : bidInvariant a) : bidInvariant (cancelAuction a req now).1 := by
  have hA : bidInvariant (refreshAndSave a now) := bidInvariant_refreshAndSave a now h
  simp only [cancelAuction]
  split_ifs <;>
    first
      | exact hA
      | exact bidInvariant_preSave_of _ ((bidInvariant_fields rfl rfl rfl).mpr hA)

lemma processWinner_invariant (a : Auction) (req : Requester) (now : Int)
    (h : bidInvariant a) : bidInvariant (processWinner a req now).1 := by
  have hA : bidInvariant (refreshAndSave a now) := bidInvariant_refreshAndSave a now h
  simp only [processWinner]
  split_ifs <;>
    first
      | exact h
      | exact hA
      | exact bidInvariant_preSave_of _ ((bidInvariant_fields rfl rfl rfl).mpr hA)

/-- A sequence of bid placements, each acting on the state the previous
one persisted. -/
def applyBids : Auction → List (Nat × Rat × Int) → Auction
  | a, [] => a
  | a, s :: rest => applyBids (placeBid a s.1 s.2.1 s.2.2).1 rest

/-- All bids in the sequence are accepted. -/
def allSucceed : Auction → List (Nat × Rat × Int) → Bool
  | _, [] => true
  | a, s :: rest =>
    (placeBid a s.1 s.2.1 s.2.2).2.isNone && allSucceed (placeBid a s.1 s.2.1 s.2.2).1 rest

lemma applyBids_invariant : ∀ (L : List (Nat × Rat × Int)) (a : Auction),
    bidInvariant a → allSucceed a L = true →
      bidInvariant (applyBids a L) ∧
      (L ≠ [] → a.currentHighestBid < (applyBids a L).currentHighestBid) := by
  intro L
  induction L with
  | nil =>
    intro a h _
    exact ⟨h, fun hne => absurd rfl hne⟩
  | cons s rest ih =>
    intro a h hall
    rw [allSucceed, Bool.and_eq_true] at hall
    have hs : (placeBid a s.1 s.2.1 s.2.2).2 = none :=
      Option.isNone_iff_eq_none.mp hall.1
    obtain ⟨hc1, hc2, hc3⟩ := placeBid_success_core a s.1 s.2.1 s.2.2 hs
    obtain ⟨ih1, ih2⟩ := ih _ hc1 hall.2
    refine ⟨ih1, fun _ => ?_⟩
    have hlt : a.currentHighestBid < (placeBid a s.1 s.2.1 s.2.2).1.currentHighestBid := by
      rw [hc2]; exact hc3
    rcases eq_or_ne rest [] with hr | hr
    · subst hr
      exact hlt
    · exact lt_trans hlt (ih2 hr)

/-- **C6.**  The invariant "`currentHighestBid` = amount of the last
appended bid, or `startingBid` when `bids` is empty" is established by
creation and preserved by every operation (`refreshStatus`, `placeBid`
— accepted or rejected —, `updateFields`, `cancel`, `settle`); each
accepted bid makes `currentHighestBid` equal its own amount and strictly
larger than before, so over any sequence of accepted bids
`currentHighestBid` is strictly increasing and always the most recent
bid's amount. -/
theorem currentHighestBid_last_bid_invariant :
    (∀ product hasOpen req st et sb rp bnp now a,
      createAuction product hasOpen req st et sb rp bnp now = Except.ok a →
        bidInvariant a ∧ a.bids = [] ∧ a.currentHighestBid = a.startingBid) ∧
    (∀ (a : Auction) (now : Int), bidInvariant a →
      bidInvariant (updateAuctionStatus a now)) ∧
    (∀ (a : Auction) (b : Nat) (amt : Rat) (now : Int), bidInvariant a →
      bidInvariant (placeBid a b amt now).1) ∧
    (∀ (a : Auction) (b : Nat) (amt : Rat) (now : Int),
      (placeBid a b amt now).2 = none →
        (placeBid a b amt now).1.currentHighestBid = amt ∧ a.currentHighestBid < amt) ∧
    (∀ (a : Auction) (u : UpdateReq) (req : Requester) (now : Int), bidInvariant a →
      bidInvariant (updateFields a u req now).1) ∧
    (∀ (a : Auction) (req : Requester) (now : Int), bidInvariant a →
      bidInvariant (cancelAuction a req now).1) ∧
    (∀ (a : Auction) (req : Requester) (now : Int), bidInvariant a →
      bidInvariant (processWinner a req now).1) ∧
    (∀ (L : List (Nat × Rat × Int)) (a : Auction), bidInvariant a →
      allSucceed a L = true →
        bidInvariant (applyBids a L) ∧
        (L ≠ [] → a.currentHighestBid < (applyBids a L).currentHighestBid)) :=
  ⟨createAuction_invariant,
   fun a now h => (bidInvariant_update a now).mpr h,
   placeBid_invariant,
   fun a b amt now hs => (placeBid_success_core a b amt now hs).2,
   updateFields_invariant,
   cancelAuction_invariant,
   processWinner_invariant,
   applyBids_invariant⟩

/-- Witness for C6: the concrete 101-then-110 bid sequence on `aBase`. -/
theorem currentHighestBid_last_bid_invariant_witness :
    ((placeBid aBase 2 101 500).1.currentHighestBid = 101 ∧
      aBase.currentHighestBid < 101) ∧
    (bidInvariant (applyBids aBase [(2, 101, 500), (3, 110, 600)]) ∧
      (([(2, 101, 500), (3, 110, 600)] : List (Nat × Rat × Int)) ≠ [] →
        aBase.currentHighestBid <
          (applyBids aBase [(2, 101, 500), (3, 110, 600)]).currentHighestBid)) :=
  ⟨currentHighestBid_last_bid_invariant.2.2.2.1 aBase 2 101 500 (by decide),
   currentHighestBid_last_bid_invariant.2.2.2.2.2.2.2
     [(2, 101, 500), (3, 110, 600)] aBase (by decide) (by decide)⟩

end EcomAuction
